import Mathlib

/-!
Verification of the `basemodel` Go package (mongo-basemodel).

The package defines a single struct `BaseCollection` with four fields
(`Oid primitive.ObjectID`, `CreatedAt time.Time`, `UpdatedAt *time.Time`,
`DeletedAt *time.Time`), four mutating methods (`SetInsertMeta`,
`SetUpdateMeta`, `SetDeleteMeta` — each reading the ambient wall clock,
the first also generating a fresh ObjectID) and five pure reads
(`IsDeleted`, `GetID`, `GetCreatedAt`, `GetUpdatedAt`, `GetDeletedAt`).

Shallow embedding choices:
* `time.Time` is modelled as `Time := Nat` (ticks of the wall clock);
  the Go zero value of `time.Time` is `0`.
* `primitive.ObjectID` (`[12]byte` in the driver) is modelled as a list
  of byte values; the zero ObjectID is twelve zero bytes and `Hex` is
  lowercase fixed-width hexadecimal rendering, exactly as
  `hex.EncodeToString(id[:])` produces in Go.
* The ambient effects (`time.Now()`, `primitive.NewObjectID()`) become
  explicit parameters of the corresponding operations: the caller of the
  model supplies the clock reading and the freshly generated identifier.
* The nullable pointers `*time.Time` become `Option Time`; `nil` is `none`.
* Mutation becomes explicit state passing: each setter returns the new
  record value.
-/

/-- Model of Go `time.Time` as wall-clock ticks; the zero value is `0`. -/
abbrev Time := Nat

/-- Lowercase hex digit table of Go `encoding/hex` ("0123456789abcdef"). -/
def hexDigit (n : Nat) : Char :=
  if n < 10 then Char.ofNat (48 + n) else Char.ofNat (87 + n)

/-- Rendering of a single byte as two hex characters, high nibble first,
as `encoding/hex.EncodeToString` does per byte. -/
def byteHex (b : Nat) : List Char :=
  [hexDigit (b / 16), hexDigit (b % 16)]

/-- Go `hex.EncodeToString` over a byte slice: concatenation of per-byte pairs. -/
def hexEncode (bs : List Nat) : List Char :=
  (bs.map byteHex).flatten

/-- Model of `primitive.ObjectID` (a 12-byte array in the mongo driver). -/
structure ObjectID where
  bytes : List Nat
deriving DecidableEq, Repr

/-- The zero value of `primitive.ObjectID`: twelve zero bytes. -/
def ObjectID.zero : ObjectID := ⟨List.replicate 12 0⟩

/-- Go `ObjectID.Hex()`: `hex.EncodeToString(id[:])`. -/
def ObjectID.Hex (o : ObjectID) : String := ⟨hexEncode o.bytes⟩

/-- Go `ObjectID.IsZero()`: comparison with the zero ObjectID. -/
def ObjectID.IsZero (o : ObjectID) : Bool := o.bytes = ObjectID.zero.bytes

/-- A well-formed driver ObjectID: twelve bytes, each below 256. -/
def ObjectID.WellFormed (o : ObjectID) : Prop :=
  o.bytes.length = 12 ∧ ∀ b ∈ o.bytes, b < 256

/-- The struct `BaseCollection` of src/basemodel.go. -/
structure BaseCollection where
  Oid : ObjectID
  CreatedAt : Time
  UpdatedAt : Option Time
  DeletedAt : Option Time
deriving DecidableEq, Repr

/-- A freshly constructed record: every field holds its Go zero value. -/
def BaseCollection.new : BaseCollection :=
  { Oid := ObjectID.zero, CreatedAt := 0, UpdatedAt := none, DeletedAt := none }

/-- Go `SetInsertMeta`: `b.Oid = primitive.NewObjectID(); b.CreatedAt = now`.
The generated ObjectID and the clock reading are explicit parameters. -/
def BaseCollection.SetInsertMeta (b : BaseCollection) (newOid : ObjectID)
    (now : Time) : BaseCollection :=
  { b with Oid := newOid, CreatedAt := now }

/-- Go `SetUpdateMeta`: `b.UpdatedAt = &now`. -/
def BaseCollection.SetUpdateMeta (b : BaseCollection) (now : Time) :
    BaseCollection :=
  { b with UpdatedAt := some now }

/-- Go `SetDeleteMeta`: `b.DeletedAt = &now`. -/
def BaseCollection.SetDeleteMeta (b : BaseCollection) (now : Time) :
    BaseCollection :=
  { b with DeletedAt := some now }

/-- Go `IsDeleted`: `return b.DeletedAt != nil`. -/
def BaseCollection.IsDeleted (b : BaseCollection) : Bool :=
  b.DeletedAt.isSome

/-- Go `GetID`: `return b.Oid.Hex()`. -/
def BaseCollection.GetID (b : BaseCollection) : String :=
  b.Oid.Hex

/-- Go `GetCreatedAt`: `return b.CreatedAt`. -/
def BaseCollection.GetCreatedAt (b : BaseCollection) : Time :=
  b.CreatedAt

/-- Go `GetUpdatedAt`: `return b.UpdatedAt`. -/
def BaseCollection.GetUpdatedAt (b : BaseCollection) : Option Time :=
  b.UpdatedAt

/-- Go `GetDeletedAt`: `return b.DeletedAt`. -/
def BaseCollection.GetDeletedAt (b : BaseCollection) : Option Time :=
  b.DeletedAt

/-- One invocation of a mutating operation of the core, together with the
ambient inputs (clock reading, generated identifier) it consumed. The five
accessors are pure reads of the state and appear as plain functions. -/
inductive CoreOp where
  | insertOp (oid : ObjectID) (now : Time)
  | updateOp (now : Time)
  | deleteOp (now : Time)
deriving DecidableEq, Repr

/-- Whether an operation is the insert-metadata operation. -/
def CoreOp.isInsert : CoreOp → Bool
  | .insertOp _ _ => true
  | _ => false

/-- Effect of one mutating operation on a record. -/
def BaseCollection.applyOp (b : BaseCollection) : CoreOp → BaseCollection
  | .insertOp oid now => b.SetInsertMeta oid now
  | .updateOp now => b.SetUpdateMeta now
  | .deleteOp now => b.SetDeleteMeta now

/-- Effect of a sequence of mutating operations, first element first. -/
def BaseCollection.applyOps (b : BaseCollection) (ops : List CoreOp) :
    BaseCollection :=
  ops.foldl BaseCollection.applyOp b

/-- The sixteen characters a hex digit can render to ("0123456789abcdef"). -/
def hexAlphabet : List Char := "0123456789abcdef".data

lemma hexEncode_cons (b : Nat) (t : List Nat) :
    hexEncode (b :: t) = byteHex b ++ hexEncode t := rfl

lemma hexDigit_eq_zero : ∀ m, m < 16 → (hexDigit m = '0' ↔ m = 0) := by decide

lemma hexDigit_mem_alphabet : ∀ m, m < 16 → hexDigit m ∈ hexAlphabet := by decide

lemma hexEncode_length (bs : List Nat) :
    (hexEncode bs).length = 2 * bs.length := by
  induction bs with
  | nil => rfl
  | cons b t ih =>
    rw [hexEncode_cons, List.length_append, ih]
    simp only [byteHex, List.length_cons, List.length_nil]
    omega

lemma hexEncode_zeros : ∀ (bs : List Nat), (∀ b ∈ bs, b < 256) →
    hexEncode bs = List.replicate (2 * bs.length) '0' → ∀ x ∈ bs, x = 0 := by
  intro bs
  induction bs with
  | nil => intro _ _ x hx; simp at hx
  | cons b t ih =>
    intro hlt h x hx
    have hb : b < 256 := hlt b (List.mem_cons_self _ _)
    have e2 : 2 * (b :: t).length = 2 * t.length + 1 + 1 := by
      simp only [List.length_cons]; omega
    rw [hexEncode_cons, e2, List.replicate_succ, List.replicate_succ] at h
    simp only [byteHex, List.cons_append, List.nil_append] at h
    injection h with h1 h'
    injection h' with h2 h3
    have hb0 : b = 0 := by
      have d1 := (hexDigit_eq_zero (b / 16) (by omega)).1 h1
      have d2 := (hexDigit_eq_zero (b % 16) (by omega)).1 h2
      omega
    rcases List.mem_cons.mp hx with rfl | hx'
    · exact hb0
    · exact ih (fun y hy => hlt y (List.mem_cons_of_mem _ hy)) h3 x hx'

lemma hexEncode_mem_alphabet : ∀ (bs : List Nat), (∀ b ∈ bs, b < 256) →
    ∀ c ∈ hexEncode bs, c ∈ hexAlphabet := by
  intro bs
  induction bs with
  | nil => intro _ c hc; simp [hexEncode] at hc
  | cons b t ih =>
    intro hlt c hc
    have hb : b < 256 := hlt b (List.mem_cons_self _ _)
    rw [hexEncode_cons] at hc
    rcases List.mem_append.mp hc with h1 | h2
    · rcases List.mem_cons.mp h1 with rfl | h1'
      · exact hexDigit_mem_alphabet _ (by omega)
      · rcases List.mem_cons.mp h1' with rfl | h1''
        · exact hexDigit_mem_alphabet _ (by omega)
        · simp at h1''
    · exact ih (fun y hy => hlt y (List.mem_cons_of_mem _ hy)) c h2

lemma applyOps_frame : ∀ (ops : List CoreOp) (b : BaseCollection),
    (∀ op ∈ ops, op.isInsert = false) →
    (b.applyOps ops).Oid = b.Oid ∧ (b.applyOps ops).CreatedAt = b.CreatedAt := by
  intro ops
  induction ops with
  | nil => intro b _; exact ⟨rfl, rfl⟩
  | cons op t ih =>
    intro b h
    have hop : op.isInsert = false := h op (List.mem_cons_self _ _)
    have ht : ∀ o ∈ t, o.isInsert = false :=
      fun o ho => h o (List.mem_cons_of_mem _ ho)
    have hpeel : BaseCollection.applyOps b (op :: t)
        = BaseCollection.applyOps (b.applyOp op) t := rfl
    rw [hpeel]
    rcases ih (b.applyOp op) ht with ⟨h1, h2⟩
    cases op with
    | insertOp oid now => simp [CoreOp.isInsert] at hop
    | updateOp now => exact ⟨h1.trans rfl, h2.trans rfl⟩
    | deleteOp now => exact ⟨h1.trans rfl, h2.trans rfl⟩

lemma applyOps_updated_isSome : ∀ (ops : List CoreOp) (b : BaseCollection),
    b.UpdatedAt.isSome = true → (b.applyOps ops).UpdatedAt.isSome = true := by
  intro ops
  induction ops with
  | nil => intro b h; exact h
  | cons op t ih =>
    intro b h
    have hpeel : BaseCollection.applyOps b (op :: t)
        = BaseCollection.applyOps (b.applyOp op) t := rfl
    rw [hpeel]
    apply ih
    cases op with
    | insertOp oid now => exact h
    | updateOp now => rfl
    | deleteOp now => exact h

lemma applyOps_deleted_isSome : ∀ (ops : List CoreOp) (b : BaseCollection),
    b.DeletedAt.isSome = true → (b.applyOps ops).DeletedAt.isSome = true := by
  intro ops
  induction ops with
  | nil => intro b h; exact h
  | cons op t ih =>
    intro b h
    have hpeel : BaseCollection.applyOps b (op :: t)
        = BaseCollection.applyOps (b.applyOp op) t := rfl
    rw [hpeel]
    apply ih
    cases op with
    | insertOp oid now => exact h
    | updateOp now => exact h
    | deleteOp now => rfl

/-- C1: once `Oid` and `CreatedAt` have been set by `SetInsertMeta`, no
sequence of the other mutating operations (`SetUpdateMeta`, `SetDeleteMeta`)
ever changes them; the five accessors (`IsDeleted` and the getters) are pure
reads by construction — they take the state and return a value, never a new
state — so they cannot change any field. -/
theorem insert_fields_immutable (b : BaseCollection) (oid : ObjectID)
    (t : Time) (ops : List CoreOp) (h : ∀ op ∈ ops, op.isInsert = false) :
    ((b.SetInsertMeta oid t).applyOps ops).Oid = oid ∧
    ((b.SetInsertMeta oid t).applyOps ops).CreatedAt = t := by
  rcases applyOps_frame ops (b.SetInsertMeta oid t) h with ⟨h1, h2⟩
  exact ⟨h1.trans rfl, h2.trans rfl⟩

theorem insert_fields_immutable_witness :
    (∀ op ∈ [CoreOp.updateOp 5, CoreOp.deleteOp 7], op.isInsert = false) ∧
    ((BaseCollection.new.SetInsertMeta ⟨[1]⟩ 3).applyOps
      [CoreOp.updateOp 5, CoreOp.deleteOp 7]).Oid = ⟨[1]⟩ :=
  ⟨by decide,
    (insert_fields_immutable BaseCollection.new ⟨[1]⟩ 3
      [CoreOp.updateOp 5, CoreOp.deleteOp 7] (by decide)).1⟩

/-- C2: `SetUpdateMeta` stores the supplied wall-clock reading in
`UpdatedAt` and leaves `Oid`, `CreatedAt` and `DeletedAt` exactly as they
were. -/
theorem update_meta_frame (b : BaseCollection) (t : Time) :
    (b.SetUpdateMeta t).GetUpdatedAt = some t ∧
    (b.SetUpdateMeta t).Oid = b.Oid ∧
    (b.SetUpdateMeta t).CreatedAt = b.CreatedAt ∧
    (b.SetUpdateMeta t).GetDeletedAt = b.GetDeletedAt :=
  ⟨rfl, rfl, rfl, rfl⟩

/-- C3: `SetDeleteMeta` stores the supplied wall-clock reading in
`DeletedAt` and leaves `Oid`, `CreatedAt` and `UpdatedAt` exactly as they
were; invoking it again on an already-deleted record succeeds and simply
overwrites `DeletedAt` with the fresh reading. -/
theorem delete_meta_frame (b : BaseCollection) (t t2 : Time) :
    (b.SetDeleteMeta t).GetDeletedAt = some t ∧
    (b.SetDeleteMeta t).Oid = b.Oid ∧
    (b.SetDeleteMeta t).CreatedAt = b.CreatedAt ∧
    (b.SetDeleteMeta t).GetUpdatedAt = b.GetUpdatedAt ∧
    ((b.SetDeleteMeta t).SetDeleteMeta t2).GetDeletedAt = some t2 :=
  ⟨rfl, rfl, rfl, rfl, rfl⟩

/-- C4: `IsDeleted` returns true exactly when `DeletedAt` is present
(non-nil); presence of `DeletedAt` is the sole soft-delete marker — the
`BaseCollection` struct carries no separate boolean flag (its only fields
are `Oid`, `CreatedAt`, `UpdatedAt`, `DeletedAt`). -/
theorem isDeleted_iff_deletedAt_present (b : BaseCollection) :
    b.IsDeleted = true ↔ b.GetDeletedAt ≠ none := by
  simp [BaseCollection.IsDeleted, BaseCollection.GetDeletedAt,
    Option.isSome_iff_ne_none]

/-- C5: on a freshly constructed record (all fields zero-valued), `GetID`
returns the all-zero 24-character string, `GetCreatedAt` the zero time,
`GetUpdatedAt` and `GetDeletedAt` return the absent marker, and `IsDeleted`
returns false. -/
theorem fresh_record_defaults :
    BaseCollection.new.GetID = "000000000000000000000000" ∧
    BaseCollection.new.GetCreatedAt = 0 ∧
    BaseCollection.new.GetUpdatedAt = none ∧
    BaseCollection.new.GetDeletedAt = none ∧
    BaseCollection.new.IsDeleted = false := by
  refine ⟨by decide, rfl, rfl, rfl, rfl⟩

/-- C6: `SetInsertMeta` stores the freshly generated identifier in `Oid`
and the clock reading in `CreatedAt`, overwriting whatever a prior call had
stored; it is idempotent in shape but not in value — when the generator
yields distinct identifiers (respectively the clock yields distinct
readings), two calls leave distinct `Oid` (respectively `CreatedAt`)
values. -/
theorem insert_meta_regenerates (b : BaseCollection) (oid1 oid2 : ObjectID)
    (t1 t2 : Time) :
    (b.SetInsertMeta oid1 t1).Oid = oid1 ∧
    (b.SetInsertMeta oid1 t1).CreatedAt = t1 ∧
    ((b.SetInsertMeta oid1 t1).SetInsertMeta oid2 t2).Oid = oid2 ∧
    ((b.SetInsertMeta oid1 t1).SetInsertMeta oid2 t2).CreatedAt = t2 ∧
    (oid1 ≠ oid2 → (b.SetInsertMeta oid1 t1).Oid ≠
      ((b.SetInsertMeta oid1 t1).SetInsertMeta oid2 t2).Oid) ∧
    (t1 ≠ t2 → (b.SetInsertMeta oid1 t1).CreatedAt ≠
      ((b.SetInsertMeta oid1 t1).SetInsertMeta oid2 t2).CreatedAt) :=
  ⟨rfl, rfl, rfl, rfl, fun h => h, fun h => h⟩

theorem insert_meta_regenerates_witness :
    ((⟨[1]⟩ : ObjectID) ≠ ⟨[2]⟩) ∧
    (BaseCollection.new.SetInsertMeta ⟨[1]⟩ 1).Oid ≠
      ((BaseCollection.new.SetInsertMeta ⟨[1]⟩ 1).SetInsertMeta ⟨[2]⟩ 2).Oid :=
  ⟨by decide,
    (insert_meta_regenerates BaseCollection.new ⟨[1]⟩ ⟨[2]⟩ 1 2).2.2.2.2.1
      (by decide)⟩

/-- C7: once `UpdatedAt` (respectively `DeletedAt`) is present, no sequence
of core operations — inserts included — ever clears it back to absent; and a
repeated call to its setter with a later clock reading overwrites it with
that newer timestamp. -/
theorem timestamps_never_cleared (b : BaseCollection) (ops : List CoreOp)
    (t0 t : Time) :
    (b.GetUpdatedAt ≠ none → (b.applyOps ops).GetUpdatedAt ≠ none) ∧
    (b.GetDeletedAt ≠ none → (b.applyOps ops).GetDeletedAt ≠ none) ∧
    (b.GetUpdatedAt = some t0 → t0 < t →
      (b.SetUpdateMeta t).GetUpdatedAt = some t ∧ t0 < t) ∧
    (b.GetDeletedAt = some t0 → t0 < t →
      (b.SetDeleteMeta t).GetDeletedAt = some t ∧ t0 < t) := by
  refine ⟨?_, ?_, fun _ h => ⟨rfl, h⟩, fun _ h => ⟨rfl, h⟩⟩
  · intro h
    exact Option.isSome_iff_ne_none.1
      (applyOps_updated_isSome ops b (Option.isSome_iff_ne_none.2 h))
  · intro h
    exact Option.isSome_iff_ne_none.1
      (applyOps_deleted_isSome ops b (Option.isSome_iff_ne_none.2 h))

theorem timestamps_never_cleared_witness :
    ((BaseCollection.mk ObjectID.zero 0 (some 3) (some 3)).applyOps
      [CoreOp.insertOp ObjectID.zero 9]).GetUpdatedAt ≠ none ∧
    ((BaseCollection.mk ObjectID.zero 0 (some 3) (some 3)).SetUpdateMeta 5).GetUpdatedAt
      = some 5 ∧ 3 < 5 :=
  ⟨(timestamps_never_cleared (BaseCollection.mk ObjectID.zero 0 (some 3) (some 3))
      [CoreOp.insertOp ObjectID.zero 9] 3 5).1 (by decide),
   (timestamps_never_cleared (BaseCollection.mk ObjectID.zero 0 (some 3) (some 3))
      [CoreOp.insertOp ObjectID.zero 9] 3 5).2.2.1 (by decide) (by decide)⟩

/-- C8: `GetID` returns the `Oid` field rendered in its canonical
fixed-length hexadecimal form; after `SetInsertMeta` with a well-formed
non-zero generated identifier it returns a non-zero 24-character
hexadecimal string, and before any insert (freshly constructed record) it
returns the all-zero string. -/
theorem getID_canonical_hex (b : BaseCollection) (oid : ObjectID) (t : Time)
    (hwf : oid.WellFormed) (hnz : oid ≠ ObjectID.zero) :
    b.GetID = b.Oid.Hex ∧
    ((b.SetInsertMeta oid t).GetID).length = 24 ∧
    (b.SetInsertMeta oid t).GetID ≠ "000000000000000000000000" ∧
    (∀ c ∈ ((b.SetInsertMeta oid t).GetID).data, c ∈ hexAlphabet) ∧
    BaseCollection.new.GetID = "000000000000000000000000" := by
  obtain ⟨hlen, hlt⟩ := hwf
  refine ⟨rfl, ?_, ?_, ?_, by decide⟩
  · show (hexEncode oid.bytes).length = 24
    rw [hexEncode_length, hlen]
  · intro h
    have hdata : hexEncode oid.bytes = ("000000000000000000000000" : String).data :=
      congrArg String.data h
    have hrep : ("000000000000000000000000" : String).data
        = List.replicate 24 '0' := by decide
    have h24 : (24 : Nat) = 2 * oid.bytes.length := by rw [hlen]
    rw [hrep, h24] at hdata
    have hz : ∀ x ∈ oid.bytes, x = 0 := hexEncode_zeros oid.bytes hlt hdata
    apply hnz
    cases oid with
    | mk bs =>
      apply congrArg ObjectID.mk
      have hb : bs = List.replicate bs.length 0 := List.eq_replicate_length.2 hz
      rw [hb]
      simp only at hlen
      rw [hlen]
  · show ∀ c ∈ hexEncode oid.bytes, c ∈ hexAlphabet
    exact hexEncode_mem_alphabet oid.bytes hlt

theorem getID_canonical_hex_witness :
    ObjectID.WellFormed ⟨[0, 0, 0, 0, 0, 0, 0, 0, 0, 0, 0, 1]⟩ ∧
    (⟨[0, 0, 0, 0, 0, 0, 0, 0, 0, 0, 0, 1]⟩ : ObjectID) ≠ ObjectID.zero ∧
    (BaseCollection.new.SetInsertMeta ⟨[0, 0, 0, 0, 0, 0, 0, 0, 0, 0, 0, 1]⟩ 7).GetID
      ≠ "000000000000000000000000" :=
  ⟨⟨by decide, by decide⟩, by decide,
    (getID_canonical_hex BaseCollection.new
      ⟨[0, 0, 0, 0, 0, 0, 0, 0, 0, 0, 0, 1]⟩ 7 ⟨by decide, by decide⟩
      (by decide)).2.2.1⟩

/-- C9: all eight operations are total — in this embedding each is a plain
function out of every record state, with no `Option` or error result; in
particular no call order is enforced: `SetUpdateMeta` and `SetDeleteMeta`
applied to a never-inserted record (`BaseCollection.new`) still succeed with
their documented effect, and every getter is defined on every state. -/
theorem operations_total (b : BaseCollection) (oid : ObjectID) (t : Time) :
    (b.SetInsertMeta oid t).Oid = oid ∧
    (b.SetInsertMeta oid t).CreatedAt = t ∧
    (b.SetUpdateMeta t).GetUpdatedAt = some t ∧
    (b.SetDeleteMeta t).GetDeletedAt = some t ∧
    (BaseCollection.new.SetUpdateMeta t).GetUpdatedAt = some t ∧
    (BaseCollection.new.SetDeleteMeta t).GetDeletedAt = some t ∧
    b.GetID = b.Oid.Hex ∧
    b.GetCreatedAt = b.CreatedAt ∧
    b.GetUpdatedAt = b.UpdatedAt ∧
    b.GetDeletedAt = b.DeletedAt ∧
    b.IsDeleted = b.DeletedAt.isSome :=
  ⟨rfl, rfl, rfl, rfl, rfl, rfl, rfl, rfl, rfl, rfl, rfl⟩

/-- C10: `SetInsertMeta` leaves `UpdatedAt` and `DeletedAt` unchanged
whatever they hold; in particular calling it on a soft-deleted record does
not clear the deletion marker, and `IsDeleted` still returns true
afterwards. -/
theorem insert_preserves_optional_fields (b : BaseCollection)
    (oid : ObjectID) (t : Time) :
    (b.SetInsertMeta oid t).GetUpdatedAt = b.GetUpdatedAt ∧
    (b.SetInsertMeta oid t).GetDeletedAt = b.GetDeletedAt ∧
    (b.IsDeleted = true → (b.SetInsertMeta oid t).IsDeleted = true) :=
  ⟨rfl, rfl, fun h => h⟩

theorem insert_preserves_optional_fields_witness :
    (BaseCollection.new.SetDeleteMeta 1).IsDeleted = true ∧
    ((BaseCollection.new.SetDeleteMeta 1).SetInsertMeta ⟨[7]⟩ 2).IsDeleted = true :=
  ⟨by decide,
    (insert_preserves_optional_fields (BaseCollection.new.SetDeleteMeta 1)
      ⟨[7]⟩ 2).2.2 (by decide)⟩
